import Mathlib

/-!
Shallow embedding of the transport-log PWA core (src/geo.ts, src/db.ts,
src/main.ts) and proofs about its session engine, coordinate/distance
module and outbox synchronizer.

Conventions of the embedding:
* JS `number` is idealized as `ℝ` for geographic quantities and as `ℤ`
  for millisecond timestamps (`Date.now()` values).
* Browser I/O (IndexedDB transactions, `fetch`, geolocation prompts) is
  made explicit: the store is a pure `Store` value threaded through the
  functions, network outcomes are an oracle `LogRecord → PostResponse`,
  and a geolocation fix (or its failure, i.e. the rejected
  `getCurrentPositionOrPrompt` promise) is a `GeoFix` argument.
* A JS function that can throw is embedded with result type `Except String _`;
  a plain `return` is not a throw.
* Rendering of numbers into display strings (`toFixed`, `toISOString`,
  decimal formatting of binary64) is outside the embedding; the helpers
  `showNum`, `isoDate`, `isoDateTime` and `mapsLink` abstract it.  No
  theorem below depends on the rendered text.
-/

namespace TransportLog

/-- Coordinate record from geo.ts: `{ lat, lng, timestamp }`. -/
structure Coordinate where
  lat : ℝ
  lng : ℝ
  timestamp : ℤ

/-- Earth's radius in kilometres (geo.ts). -/
def EARTH_RADIUS_KM : ℝ := 6371

/-- Convert degrees to radians (geo.ts `toRadians`). -/
noncomputable def toRadians (deg : ℝ) : ℝ :=
  deg * Real.pi / 180

/-- JS `Math.atan2(y, x)` on finite inputs: the angle of the point `(x, y)`,
with `Math.atan2(0, 0) = 0`. -/
noncomputable def atan2 (y x : ℝ) : ℝ :=
  if 0 < x then Real.arctan (y / x)
  else if x < 0 then
    (if 0 ≤ y then Real.arctan (y / x) + Real.pi else Real.arctan (y / x) - Real.pi)
  else
    (if 0 < y then Real.pi / 2 else if y < 0 then -(Real.pi / 2) else 0)

/-- Great-circle distance in kilometres via the haversine formula
(geo.ts `haversineDistance`). -/
noncomputable def haversineDistance (a b : Coordinate) : ℝ :=
  let dLat := toRadians (b.lat - a.lat)
  let dLon := toRadians (b.lng - a.lng)
  let lat1 := toRadians a.lat
  let lat2 := toRadians b.lat
  let h := Real.sin (dLat / 2) ^ 2 + Real.sin (dLon / 2) ^ 2 * Real.cos lat1 * Real.cos lat2
  let c := 2 * atan2 (Real.sqrt h) (Real.sqrt (1 - h))
  EARTH_RADIUS_KM * c

/-- Proof-side abbreviation for the haversine intermediate quantity `h`
as it appears in `haversineDistance`. -/
noncomputable def havsum (a b : Coordinate) : ℝ :=
  Real.sin (toRadians (b.lat - a.lat) / 2) ^ 2 +
    Real.sin (toRadians (b.lng - a.lng) / 2) ^ 2 *
      Real.cos (toRadians a.lat) * Real.cos (toRadians b.lat)

/-- Log record persisted in IndexedDB (db.ts `LogRecord`).  Optional interface
fields are `Option`; the auto-increment key assignment of IndexedDB is
abstracted (records are stored as given). -/
structure LogRecord where
  id : Option ℕ
  date : String
  departureName : Option String
  arrivalName : Option String
  departureTime : String
  arrivalTime : Option String
  drivingMinutes : ℤ
  breakMinutes : ℤ
  distanceKm : ℝ
  fuelLitres : ℝ
  fuelCost : ℝ
  departureLat : ℝ
  departureLng : ℝ
  arrivalLat : ℝ
  arrivalLng : ℝ
  note : Option String

/-- The two IndexedDB object stores of db.ts: `logs` (canonical set) and
`pending` (not-yet-synchronized outbox), each in insertion order. -/
structure Store where
  logs : List LogRecord
  pending : List LogRecord

/-- db.ts `saveLog`: the record is always added to the main logs store, and
also to the pending store when `pending` is true. -/
def saveLog (st : Store) (record : LogRecord) (pending : Bool) : Store :=
  { logs := st.logs ++ [record]
    pending := if pending then st.pending ++ [record] else st.pending }

/-- db.ts `getAllLogs`: all stored logs (not pending logs). -/
def getAllLogs (st : Store) : List LogRecord :=
  st.logs

/-- db.ts `getPendingLogs`: all records not yet sent to the server. -/
def getPendingLogs (st : Store) : List LogRecord :=
  st.pending

/-- db.ts `clearPendingLogs`: clears the whole pending store, leaving the
logs store untouched. -/
def clearPendingLogs (st : Store) : Store :=
  { st with pending := [] }

/-- db.ts `deleteLogById`: removes the record with the given id from both the
logs store and the pending store. -/
def deleteLogById (st : Store) (id : ℕ) : Store :=
  { logs := st.logs.filter (fun r => r.id ≠ some id)
    pending := st.pending.filter (fun r => r.id ≠ some id) }

/-- Outcome of one `fetch` of the remote sink, as postLog inspects it:
`ok` is `res.ok` (HTTP success) and `bodyOk` is the truthiness of
`body && body.ok` of the JSON response. -/
structure PostResponse where
  ok : Bool
  bodyOk : Bool

/-- main.ts `postLog`: posts one record; throws if the URL is missing, the
HTTP status is not a success, or the response body's `ok` flag is falsy.
The network is the oracle `resp`. -/
def postLog (url : Option String) (resp : LogRecord → PostResponse)
    (record : LogRecord) : Except String Unit :=
  match url with
  | none => .error "SHEETS_WEBAPP_URL is not configured"
  | some _ =>
    if (resp record).ok = false then .error "Failed to post log"
    else if (resp record).bodyOk = false then .error "Server error"
    else .ok ()

/-- Whether `postLog` returns without throwing. -/
def postSucceeds (url : Option String) (resp : LogRecord → PostResponse)
    (record : LogRecord) : Bool :=
  match postLog url resp record with
  | .ok _ => true
  | .error _ => false

/-- The `for (const record of pending) try ... catch return` loop of
`sendPendingIfOnline`: posts records one at a time in order; stops at the
first failure.  Returns the list of records actually handed to `postLog`
(in invocation order) and whether every post succeeded. -/
def drainLoop (post : LogRecord → Bool) : List LogRecord → List LogRecord × Bool
  | [] => ([], true)
  | r :: rs =>
    if post r then
      let rest := drainLoop post rs
      (r :: rest.1, rest.2)
    else ([r], false)

/-- main.ts `sendPendingIfOnline`: no-op when offline, when no
`SHEETS_WEBAPP_URL` is configured (absent or empty string, which is falsy
in JS), or when nothing is pending.  Otherwise posts the pending records
one by one in order, aborting on the first failure; only when every post
succeeded is the pending store cleared.  Returns the updated store and the
list of records that were handed to `postLog`. -/
def sendPendingIfOnline (online : Bool) (url : Option String)
    (resp : LogRecord → PostResponse) (st : Store) : Store × List LogRecord :=
  if online then
    match url with
    | none => (st, [])
    | some u =>
      if u = "" then (st, [])
      else
        let pending := getPendingLogs st
        if pending.length = 0 then (st, [])
        else
          let d := drainLoop (postSucceeds (some u) resp) pending
          if d.2 then (clearPendingLogs st, d.1) else (st, d.1)
  else (st, [])

/-- Break interval of main.ts (`BreakLog`): start/end timestamps with
optional coordinates for each button press.  The source field `end` is a
Lean keyword and is embedded as `endTime`. -/
structure BreakLog where
  start : ℤ
  endTime : Option ℤ
  startLat : Option ℝ
  startLng : Option ℝ
  endLat : Option ℝ
  endLng : Option ℝ

/-- Rest interval of main.ts (`RestLog`); same shape as `BreakLog`. -/
structure RestLog where
  start : ℤ
  endTime : Option ℤ
  startLat : Option ℝ
  startLng : Option ℝ
  endLat : Option ℝ
  endLng : Option ℝ

/-- Fuel stop of main.ts (`FuelEvent`). -/
structure FuelEvent where
  time : ℤ
  amount : ℝ
  cost : Option ℝ
  lat : ℝ
  lng : ℝ

/-- In-memory state of the active session (main.ts `SessionState`). -/
structure SessionState where
  startTime : ℤ
  startCoord : Option Coordinate
  coords : List Coordinate
  distance : ℝ
  breaks : List BreakLog
  rests : List RestLog
  fuelLogs : List FuelEvent
  watchId : Option ℕ

/-- Result of `getCurrentPositionOrPrompt`: either a fix (from geolocation
or the manual prompt) or the rejection taken when the prompt is
cancelled. -/
inductive GeoFix where
  | ok (lat lng : ℝ)
  | unavailable

/-- Latitude a caller falls back to: the fix's latitude, or `0` in the
`catch` branches of main.ts. -/
def fixLat : GeoFix → ℝ
  | .ok lat _ => lat
  | .unavailable => 0

/-- Longitude counterpart of `fixLat`. -/
def fixLng : GeoFix → ℝ
  | .ok _ lng => lng
  | .unavailable => 0

/-- main.ts `startSession`: a no-op when a session is already active;
otherwise seeds a fresh session from the obtained coordinate, or leaves
the state Idle when the position could not be obtained (the `catch`
branch only alerts). -/
def startSession (s? : Option SessionState) (now : ℤ) (g : GeoFix) : Option SessionState :=
  match s? with
  | some s => some s
  | none =>
    match g with
    | .ok lat lng =>
      some { startTime := now
             startCoord := some ⟨lat, lng, now⟩
             coords := [⟨lat, lng, now⟩]
             distance := 0
             breaks := []
             rests := []
             fuelLogs := []
             watchId := none }
    | .unavailable => none

/-- Body of main.ts `handleLocationUpdate` for an active session: reads the
last track point, computes the haversine delta, and appends the
coordinate (accumulating the delta) only when the delta is at least
50 metres; otherwise the update is discarded.  An empty track (impossible
in the source, where the track is seeded with the start point) makes the
JS comparison `NaN >= 50` false, i.e. the update is discarded. -/
noncomputable def handleLocationUpdateActive (s : SessionState) (coord : Coordinate) :
    SessionState :=
  match s.coords.getLast? with
  | none => s
  | some last =>
    let delta := haversineDistance last coord
    if delta * 1000 ≥ 50 then
      { s with distance := s.distance + delta, coords := s.coords ++ [coord] }
    else s

/-- main.ts `handleLocationUpdate`: no-op when no session is active. -/
noncomputable def handleLocationUpdate (s? : Option SessionState) (coord : Coordinate) :
    Option SessionState :=
  match s? with
  | none => none
  | some s => some (handleLocationUpdateActive s coord)

/-- Whether the last interval of the list is open, i.e.
`breaks.length > 0 && breaks[breaks.length - 1].end === undefined`. -/
def lastBreakOpen (bs : List BreakLog) : Bool :=
  match bs.getLast? with
  | some b => b.endTime.isNone
  | none => false

/-- New break pushed by `toggleBreak`: start time now, start coordinates
when the position was obtained. -/
def newBreak (now : ℤ) (g : GeoFix) : BreakLog :=
  match g with
  | .ok lat lng => ⟨now, none, some lat, some lng, none, none⟩
  | .unavailable => ⟨now, none, none, none, none, none⟩

/-- Closing of the ongoing break by `toggleBreak`: end time now, end
coordinates only when the position was obtained. -/
def closeBreak (b : BreakLog) (now : ℤ) (g : GeoFix) : BreakLog :=
  match g with
  | .ok lat lng => { b with endTime := some now, endLat := some lat, endLng := some lng }
  | .unavailable => { b with endTime := some now }

/-- Body of main.ts `toggleBreak` for an active session: closes the ongoing
break if one is open, else opens a new one. -/
def toggleBreakActive (s : SessionState) (now : ℤ) (g : GeoFix) : SessionState :=
  if lastBreakOpen s.breaks then
    { s with breaks := s.breaks.dropLast ++
        (match s.breaks.getLast? with
         | some b => [closeBreak b now g]
         | none => []) }
  else
    { s with breaks := s.breaks ++ [newBreak now g] }

/-- main.ts `toggleBreak`: no-op when no session is active. -/
def toggleBreak (s? : Option SessionState) (now : ℤ) (g : GeoFix) : Option SessionState :=
  match s? with
  | none => none
  | some s => some (toggleBreakActive s now g)

/-- `lastBreakOpen` for rests. -/
def lastRestOpen (rs : List RestLog) : Bool :=
  match rs.getLast? with
  | some r => r.endTime.isNone
  | none => false

/-- New rest pushed by `toggleRest`. -/
def newRest (now : ℤ) (g : GeoFix) : RestLog :=
  match g with
  | .ok lat lng => ⟨now, none, some lat, some lng, none, none⟩
  | .unavailable => ⟨now, none, none, none, none, none⟩

/-- Closing of the ongoing rest by `toggleRest`. -/
def closeRest (r : RestLog) (now : ℤ) (g : GeoFix) : RestLog :=
  match g with
  | .ok lat lng => { r with endTime := some now, endLat := some lat, endLng := some lng }
  | .unavailable => { r with endTime := some now }

/-- Body of main.ts `toggleRest` for an active session. -/
def toggleRestActive (s : SessionState) (now : ℤ) (g : GeoFix) : SessionState :=
  if lastRestOpen s.rests then
    { s with rests := s.rests.dropLast ++
        (match s.rests.getLast? with
         | some r => [closeRest r now g]
         | none => []) }
  else
    { s with rests := s.rests ++ [newRest now g] }

/-- main.ts `toggleRest`: no-op when no session is active. -/
def toggleRest (s? : Option SessionState) (now : ℤ) (g : GeoFix) : Option SessionState :=
  match s? with
  | none => none
  | some s => some (toggleRestActive s now g)

/-- Result of a numeric `prompt` followed by `parseFloat`:
`cancelled` for an empty/cancelled prompt (falsy string),
`nan` for an unparsable entry, `val x` otherwise. -/
inductive PromptNum where
  | cancelled
  | nan
  | val (x : ℝ)

/-- Observable outcome of main.ts `addFuel`. -/
inductive FuelOutcome where
  | noSession
  | cancelled
  | validationError
  | added
deriving DecidableEq

/-- The fuel-cost computation of `addFuel`: `cost` starts at 0 and is
replaced only by a parsed value that is strictly positive, so negative,
zero, cancelled or unparsable entries all leave 0. -/
noncomputable def clampCost : PromptNum → ℝ
  | .val c => if 0 < c then c else 0
  | _ => 0

/-- Body of main.ts `addFuel` for an active session: validates the amount
(alerting and aborting on a non-numeric or non-positive entry), clamps the
cost, obtains a position (falling back to `(0, 0)`), and appends one
`FuelEvent`. -/
noncomputable def addFuelActive (s : SessionState) (now : ℤ) (amountP costP : PromptNum)
    (g : GeoFix) : SessionState × FuelOutcome :=
  match amountP with
  | .cancelled => (s, .cancelled)
  | .nan => (s, .validationError)
  | .val a =>
    if a ≤ 0 then (s, .validationError)
    else
      (⟨s.startTime, s.startCoord, s.coords, s.distance, s.breaks, s.rests,
        s.fuelLogs ++ [⟨now, a, some (clampCost costP), fixLat g, fixLng g⟩],
        s.watchId⟩, .added)

/-- main.ts `addFuel`: no-op when no session is active. -/
noncomputable def addFuel (s? : Option SessionState) (now : ℤ) (amountP costP : PromptNum)
    (g : GeoFix) : Option SessionState × FuelOutcome :=
  match s? with
  | none => (none, .noSession)
  | some s =>
    let r := addFuelActive s now amountP costP g
    (some r.1, r.2)

/-- JS `v || d` on an optional millisecond value: `undefined` and the falsy
number `0` both fall back to `d` (main.ts `b.end || Date.now()`). -/
def jsOr (v : Option ℤ) (d : ℤ) : ℤ :=
  match v with
  | some x => if x = 0 then d else x
  | none => d

/-- main.ts `totalBreakMs`. -/
def totalBreakMs (s : SessionState) (now : ℤ) : ℤ :=
  s.breaks.foldl (fun sum b => sum + (jsOr b.endTime now - b.start)) 0

/-- main.ts `totalRestMs`. -/
def totalRestMs (s : SessionState) (now : ℤ) : ℤ :=
  s.rests.foldl (fun sum r => sum + (jsOr r.endTime now - r.start)) 0

/-- `parseFloat(x.toFixed(3))`: rounding of the accumulated distance to
three decimals. -/
noncomputable def round3 (x : ℝ) : ℝ :=
  (round (x * 1000) : ℤ) / 1000

/-- Placeholder for JS number-to-string rendering (`toFixed` and friends);
binary64 decimal formatting is outside the embedding and no theorem
depends on the rendered text. -/
def showNum (_x : ℝ) : String :=
  ""

/-- Placeholder for `new Date(ms).toISOString().split('T')[0]`. -/
def isoDate (ms : ℤ) : String :=
  toString ms

/-- Placeholder for `new Date(ms).toISOString()`. -/
def isoDateTime (ms : ℤ) : String :=
  toString ms

/-- The Google Maps URL main.ts derives from a coordinate pair; the numeric
rendering of the query string is abstracted by `showNum`. -/
def mapsLink (lat lng : ℝ) : String :=
  "https://www.google.com/maps?q=" ++ showNum lat ++ "," ++ showNum lng

/-- Rendering of an optional coordinate pair in the note lines
(`(lat.toFixed(5),lng.toFixed(5))` or the empty string). -/
def showOptCoord (lat? lng? : Option ℝ) : String :=
  match lat? with
  | some lat => "(" ++ showNum lat ++ "," ++ showNum (lng?.getD 0) ++ ")"
  | none => ""

/-- One `休憩` line of the end-of-session note. -/
def breakNoteLine (idx : ℕ) (b : BreakLog) : String :=
  "休憩" ++ toString (idx + 1) ++ ":" ++ isoDateTime b.start ++
    showOptCoord b.startLat b.startLng ++ "-" ++
    (match b.endTime with | some e => isoDateTime e | none => "") ++
    showOptCoord b.endLat b.endLng

/-- One `休息` line of the end-of-session note. -/
def restNoteLine (idx : ℕ) (r : RestLog) : String :=
  "休息" ++ toString (idx + 1) ++ ":" ++ isoDateTime r.start ++
    showOptCoord r.startLat r.startLng ++ "-" ++
    (match r.endTime with | some e => isoDateTime e | none => "") ++
    showOptCoord r.endLat r.endLng

/-- One `給油` line of the end-of-session note. -/
def fuelNoteLine (idx : ℕ) (f : FuelEvent) : String :=
  "給油" ++ toString (idx + 1) ++ ":" ++ isoDateTime f.time ++ "(" ++
    showNum f.lat ++ "," ++ showNum f.lng ++ ") " ++ showNum f.amount ++
    "L ¥" ++ showNum (f.cost.getD 0)

/-- The machine-generated note lines of `endSession`: a rest-total summary
when positive, then one line per break, rest and fuel stop. -/
def sessionNotes (s : SessionState) (now : ℤ) : List String :=
  (if 0 < Int.fdiv (totalRestMs s now) 60000
   then ["休息合計:" ++ toString (Int.fdiv (totalRestMs s now) 60000) ++ "分"]
   else []) ++
  (((List.range s.breaks.length).zip s.breaks).map (fun p => breakNoteLine p.1 p.2)) ++
  (((List.range s.rests.length).zip s.rests).map (fun p => restNoteLine p.1 p.2)) ++
  (((List.range s.fuelLogs.length).zip s.fuelLogs).map (fun p => fuelNoteLine p.1 p.2))

/-- Final note of `endSession`: the trimmed user note (when non-empty)
joined with the machine lines by `" | "`, empty components filtered out
(`[record.note, ...notes].filter(Boolean).join(' | ')`). -/
def mkNote (userNote : Option String) (auto : List String) : String :=
  let base :=
    match userNote with
    | some t => if t.trim = "" then "" else t.trim
    | none => ""
  String.intercalate " | " ((base :: auto).filter (fun t => t ≠ ""))

/-- The LogRecord materialized by `endSession` from the session state (after
the arrival coordinate was pushed onto the track), the end coordinate and
the optional user note. -/
noncomputable def mkEndRecord (s : SessionState) (now : ℤ) (endCoord : Coordinate)
    (userNote : Option String) : LogRecord :=
  let totalBreak := totalBreakMs s now
  let totalRest := totalRestMs s now
  let drivingMs := now - s.startTime - totalBreak - totalRest
  { id := none
    date := isoDate s.startTime
    departureName := some
      (match s.startCoord with
       | some c => mapsLink c.lat c.lng
       | none => "")
    arrivalName := some (mapsLink endCoord.lat endCoord.lng)
    departureTime := isoDateTime s.startTime
    arrivalTime := some (isoDateTime now)
    drivingMinutes := Int.fdiv drivingMs 60000
    breakMinutes := Int.fdiv totalBreak 60000
    distanceKm := round3 s.distance
    fuelLitres := (s.fuelLogs.map (fun f => f.amount)).sum
    fuelCost := (s.fuelLogs.map (fun f => f.cost.getD 0)).sum
    departureLat :=
      match s.startCoord with
      | some c => c.lat
      | none => 0
    departureLng :=
      match s.startCoord with
      | some c => c.lng
      | none => 0
    arrivalLat := endCoord.lat
    arrivalLng := endCoord.lng
    note := some (mkNote userNote (sessionNotes s now)) }

/-- Result of main.ts `endSession`: the session variable after the call,
the materialized record (if any) and the track at materialization time.
Persisting the record (`saveLog` + `sendPendingIfOnline`) is the composition
`saveLog st record (!online)` on the caller's store. -/
structure EndResult where
  session : Option SessionState
  record : Option LogRecord
  finalTrack : List Coordinate

/-- main.ts `endSession`: a plain `return` (not a throw) when no session is
active; otherwise pushes the arrival coordinate onto the track
unconditionally, materializes the LogRecord, and clears the session.  The
function never throws (every awaited failure is caught), hence the
`Except` result is always `.ok`. -/
noncomputable def endSession (s? : Option SessionState) (now : ℤ) (g : GeoFix)
    (userNote : Option String) : Except String EndResult :=
  match s? with
  | none => .ok ⟨none, none, []⟩
  | some s =>
    let endCoord : Coordinate := ⟨fixLat g, fixLng g, now⟩
    let s' : SessionState := { s with coords := s.coords ++ [endCoord] }
    .ok ⟨none, some (mkEndRecord s' now endCoord userNote), s'.coords⟩

/-- Concrete log record used by closed witnesses, distinguished by id. -/
def recW (n : ℕ) : LogRecord :=
  ⟨some n, "", none, none, "", none, 0, 0, 0, 0, 0, 0, 0, 0, 0, none⟩

/-- Network oracle used by closed witnesses: only the record with id 1
posts successfully. -/
def respW : LogRecord → PostResponse :=
  fun r => if r.id = some 1 then ⟨true, true⟩ else ⟨false, false⟩

/-- Network oracle used by the redelivery counterexample: the record with
id 2 fails, everything else succeeds. -/
def respFailB : LogRecord → PostResponse :=
  fun r => if r.id = some 2 then ⟨false, false⟩ else ⟨true, true⟩

/-- Store used by the redelivery counterexample: two records, both saved
while offline (present in both the canonical and the pending store). -/
def demoStore : Store :=
  ⟨[recW 1, recW 2], [recW 1, recW 2]⟩

/-- Concrete coordinates for closed witnesses. -/
def origin : Coordinate :=
  ⟨0, 0, 0⟩

/-- A coordinate half the globe away from `origin`. -/
def faraway : Coordinate :=
  ⟨0, 180, 0⟩

/-- Concrete freshly started session used by closed witnesses. -/
def demoSession : SessionState :=
  ⟨0, some origin, [origin], 0, [], [], [], none⟩

/-! ## Lemmas about the coordinate and distance module -/

lemma haversineDistance_eq (a b : Coordinate) :
    haversineDistance a b =
      EARTH_RADIUS_KM * (2 * atan2 (Real.sqrt (havsum a b)) (Real.sqrt (1 - havsum a b))) :=
  rfl

lemma arctan_nonneg_of_nonneg {x : ℝ} (h : 0 ≤ x) : 0 ≤ Real.arctan x := by
  have := Real.arctan_strictMono.monotone h
  rwa [Real.arctan_zero] at this

lemma atan2_nonneg {y x : ℝ} (hy : 0 ≤ y) (hx : 0 ≤ x) : 0 ≤ atan2 y x := by
  unfold atan2
  split_ifs with h1 h2 h3 h4
  · exact arctan_nonneg_of_nonneg (div_nonneg hy h1.le)
  all_goals linarith [Real.pi_pos]

lemma haversine_nonneg (a b : Coordinate) : 0 ≤ haversineDistance a b := by
  rw [haversineDistance_eq]
  have h := atan2_nonneg (Real.sqrt_nonneg (havsum a b)) (Real.sqrt_nonneg (1 - havsum a b))
  have hr : (0 : ℝ) ≤ EARTH_RADIUS_KM := by norm_num [EARTH_RADIUS_KM]
  nlinarith

lemma havsum_self (a : Coordinate) : havsum a a = 0 := by
  unfold havsum toRadians
  simp

lemma haversine_self (a : Coordinate) : haversineDistance a a = 0 := by
  rw [haversineDistance_eq, havsum_self]
  simp [atan2, Real.arctan_zero]

lemma havsum_comm (a b : Coordinate) : havsum a b = havsum b a := by
  unfold havsum
  have h1 : toRadians (a.lat - b.lat) = -toRadians (b.lat - a.lat) := by
    unfold toRadians; ring
  have h2 : toRadians (a.lng - b.lng) = -toRadians (b.lng - a.lng) := by
    unfold toRadians; ring
  rw [h1, h2, neg_div, neg_div, Real.sin_neg, Real.sin_neg, neg_sq, neg_sq]
  ring

lemma haversine_comm (a b : Coordinate) : haversineDistance a b = haversineDistance b a := by
  rw [haversineDistance_eq, haversineDistance_eq, havsum_comm]

lemma havsum_origin_faraway : havsum origin faraway = 1 := by
  unfold havsum origin faraway toRadians
  simp only
  have h180 : ((180 : ℝ) - 0) * Real.pi / 180 = Real.pi := by ring
  have h0 : ((0 : ℝ) - 0) * Real.pi / 180 = 0 := by ring
  rw [h180, h0]
  simp [Real.sin_pi_div_two]

lemma haversine_origin_faraway : haversineDistance origin faraway = 6371 * Real.pi := by
  rw [haversineDistance_eq, havsum_origin_faraway]
  norm_num [Real.sqrt_one, Real.sqrt_zero, atan2, EARTH_RADIUS_KM]
  ring

/-! ## Lemmas about the store and the synchronizer -/

lemma drainLoop_all_true (post : LogRecord → Bool) (l : List LogRecord)
    (h : ∀ r ∈ l, post r = true) : drainLoop post l = (l, true) := by
  induction l with
  | nil => rfl
  | cons r rs ih =>
    have hr : post r = true := h r (List.mem_cons_self r rs)
    have hrs := ih (fun x hx => h x (List.mem_cons_of_mem r hx))
    simp [drainLoop, hr, hrs]

lemma drainLoop_isPrefix (post : LogRecord → Bool) (l : List LogRecord) :
    ∃ rest, l = (drainLoop post l).1 ++ rest := by
  induction l with
  | nil => exact ⟨[], rfl⟩
  | cons r rs ih =>
    by_cases hr : post r = true
    · obtain ⟨rest, hrest⟩ := ih
      refine ⟨rest, ?_⟩
      simp only [drainLoop, hr, if_true, List.cons_append]
      exact congrArg (r :: ·) hrest
    · exact ⟨rs, by simp [drainLoop, hr]⟩

lemma foldl_saveLog_logs (st0 : Store) (rs : List LogRecord) :
    (rs.foldl (fun s r => saveLog s r true) st0).logs = st0.logs ++ rs := by
  induction rs generalizing st0 with
  | nil => simp
  | cons r rs ih =>
    rw [List.foldl_cons, ih]
    simp [saveLog]

lemma foldl_saveLog_pending (st0 : Store) (rs : List LogRecord) :
    (rs.foldl (fun s r => saveLog s r true) st0).pending = st0.pending ++ rs := by
  induction rs generalizing st0 with
  | nil => simp
  | cons r rs ih =>
    rw [List.foldl_cons, ih]
    simp [saveLog]

/-! ## Claims -/

/-- C1: when `trySync` runs with 3 records queued and the 2nd post fails
(the 1st succeeds), the call leaves all 3 records queued in their original
insertion order and hands exactly the first two records to `postLog`
(`postRecord` is invoked at most twice; the 3rd record is never posted). -/
theorem sendPending_failure_preserves_queue
    (st : Store) (resp : LogRecord → PostResponse) (u : String) (hu : u ≠ "")
    (a b c : LogRecord) (hp : st.pending = [a, b, c])
    (ha : postSucceeds (some u) resp a = true)
    (hb : postSucceeds (some u) resp b = false) :
    sendPendingIfOnline true (some u) resp st = (st, [a, b]) := by
  simp [sendPendingIfOnline, getPendingLogs, hp, hu, drainLoop, ha, hb]

/-- Closed witness for C1 at a concrete three-record store where only the
record with id 1 posts successfully. -/
theorem sendPending_failure_preserves_queue_witness :
    ("u" : String) ≠ "" ∧
    (Store.mk [recW 1, recW 2, recW 3] [recW 1, recW 2, recW 3]).pending
      = [recW 1, recW 2, recW 3] ∧
    postSucceeds (some "u") respW (recW 1) = true ∧
    postSucceeds (some "u") respW (recW 2) = false ∧
    sendPendingIfOnline true (some "u") respW
        (Store.mk [recW 1, recW 2, recW 3] [recW 1, recW 2, recW 3]) =
      (Store.mk [recW 1, recW 2, recW 3] [recW 1, recW 2, recW 3], [recW 1, recW 2]) := by
  refine ⟨by decide, rfl, rfl, rfl, ?_⟩
  exact sendPending_failure_preserves_queue _ respW "u" (by decide) _ _ _ rfl rfl rfl

/-- C2: when `trySync` runs over a store into which N records were saved as
pending and every post succeeds, afterwards the not-yet-synchronized store
is empty, the canonical log store is unchanged, and it still contains all
N records. -/
theorem sendPending_success_clears_pending
    (st0 st : Store) (rs : List LogRecord) (resp : LogRecord → PostResponse)
    (u : String) (hu : u ≠ "")
    (hst : st = rs.foldl (fun s r => saveLog s r true) st0)
    (hall : ∀ r ∈ st.pending, postSucceeds (some u) resp r = true) :
    (sendPendingIfOnline true (some u) resp st).1.pending = [] ∧
    (sendPendingIfOnline true (some u) resp st).1.logs = st.logs ∧
    ∀ r ∈ rs, r ∈ (sendPendingIfOnline true (some u) resp st).1.logs := by
  have hlogs : st.logs = st0.logs ++ rs := by rw [hst, foldl_saveLog_logs]
  by_cases hlen : st.pending.length = 0
  · have hemp : st.pending = [] := List.length_eq_zero.mp hlen
    refine ⟨?_, ?_, ?_⟩
    · simp [sendPendingIfOnline, getPendingLogs, hu, hlen, hemp]
    · simp [sendPendingIfOnline, getPendingLogs, hu, hlen]
    · intro r hr
      have : r ∈ st.logs := by
        rw [hlogs]; exact List.mem_append_right _ hr
      simpa [sendPendingIfOnline, getPendingLogs, hu, hlen] using this
  · have hdrain := drainLoop_all_true (postSucceeds (some u) resp) st.pending hall
    refine ⟨?_, ?_, ?_⟩
    · simp [sendPendingIfOnline, getPendingLogs, hu, hlen, hdrain, clearPendingLogs]
    · simp [sendPendingIfOnline, getPendingLogs, hu, hlen, hdrain, clearPendingLogs]
    · intro r hr
      have : r ∈ st.logs := by
        rw [hlogs]; exact List.mem_append_right _ hr
      simpa [sendPendingIfOnline, getPendingLogs, hu, hlen, hdrain, clearPendingLogs] using this

/-- Closed witness for C2: one record saved as pending into an empty store,
with an always-succeeding network. -/
theorem sendPending_success_clears_pending_witness :
    ("u" : String) ≠ "" ∧
    (sendPendingIfOnline true (some "u") (fun _ => PostResponse.mk true true)
        ([recW 1].foldl (fun s r => saveLog s r true) (Store.mk [] []))).1.pending = [] ∧
    (sendPendingIfOnline true (some "u") (fun _ => PostResponse.mk true true)
        ([recW 1].foldl (fun s r => saveLog s r true) (Store.mk [] []))).1.logs =
      ([recW 1].foldl (fun s r => saveLog s r true) (Store.mk [] [])).logs ∧
    ∀ r ∈ [recW 1],
      r ∈ (sendPendingIfOnline true (some "u") (fun _ => PostResponse.mk true true)
        ([recW 1].foldl (fun s r => saveLog s r true) (Store.mk [] []))).1.logs := by
  refine ⟨by decide, ?_⟩
  exact sendPending_success_clears_pending (Store.mk [] []) _ [recW 1] _ "u" (by decide)
    rfl (fun r _ => rfl)

/-- C3 counterexample: with two queued records where the 2nd post fails,
the 1st record is delivered successfully in the first pass, yet the queue
is left unchanged, so a second pass posts (and delivers) the 1st record
again — delivery to the remote sink is not at-most-once across passes. -/
theorem sendPending_redelivery_counterexample :
    recW 1 ∈ ((sendPendingIfOnline true (some "u") respFailB demoStore).2.filter
      (fun r => postSucceeds (some "u") respFailB r)) ∧
    recW 1 ∈ (sendPendingIfOnline true (some "u") (fun _ => PostResponse.mk true true)
      (sendPendingIfOnline true (some "u") respFailB demoStore).1).2 ∧
    recW 1 ∈ ((sendPendingIfOnline true (some "u") (fun _ => PostResponse.mk true true)
      (sendPendingIfOnline true (some "u") respFailB demoStore).1).2.filter
      (fun r => postSucceeds (some "u") (fun _ => PostResponse.mk true true) r)) := by
  have h1 : ((sendPendingIfOnline true (some "u") respFailB demoStore).2.filter
      (fun r => postSucceeds (some "u") respFailB r)) = [recW 1] := rfl
  have h2 : (sendPendingIfOnline true (some "u") (fun _ => PostResponse.mk true true)
      (sendPendingIfOnline true (some "u") respFailB demoStore).1).2 = [recW 1, recW 2] := rfl
  have h3 : ((sendPendingIfOnline true (some "u") (fun _ => PostResponse.mk true true)
      (sendPendingIfOnline true (some "u") respFailB demoStore).1).2.filter
      (fun r => postSucceeds (some "u") (fun _ => PostResponse.mk true true) r))
      = [recW 1, recW 2] := rfl
  rw [h1, h3, h2]
  exact ⟨List.mem_singleton_self _, List.mem_cons_self _ _, List.mem_cons_self _ _⟩

/-- C3 as amended: within a single `trySync` pass the records handed to
`postLog` are a prefix of the queue (so each queue entry is posted at most
once per pass), and the pass either clears the queue entirely (all posts
succeeded) or leaves it exactly as it was — in the latter case records
already posted successfully remain queued and are posted again on a later
pass. -/
theorem sendPending_at_most_once_per_pass (online : Bool) (url : Option String)
    (resp : LogRecord → PostResponse) (st : Store) :
    (∃ rest, st.pending = (sendPendingIfOnline online url resp st).2 ++ rest) ∧
    ((sendPendingIfOnline online url resp st).1.pending = [] ∨
      (sendPendingIfOnline online url resp st).1.pending = st.pending) := by
  cases online with
  | false => exact ⟨⟨st.pending, rfl⟩, Or.inr rfl⟩
  | true =>
    cases url with
    | none => exact ⟨⟨st.pending, rfl⟩, Or.inr rfl⟩
    | some u =>
      by_cases hu : u = ""
      · subst hu
        exact ⟨⟨st.pending, rfl⟩, Or.inr rfl⟩
      · by_cases hlen : st.pending.length = 0
        · refine ⟨⟨st.pending, ?_⟩, Or.inr ?_⟩ <;>
            simp [sendPendingIfOnline, getPendingLogs, hu, hlen]
        · obtain ⟨rest, hrest⟩ :=
            drainLoop_isPrefix (postSucceeds (some u) resp) st.pending
          have haux : sendPendingIfOnline true (some u) resp st =
              (if (drainLoop (postSucceeds (some u) resp) st.pending).2 then
                (clearPendingLogs st, (drainLoop (postSucceeds (some u) resp) st.pending).1)
              else (st, (drainLoop (postSucceeds (some u) resp) st.pending).1)) := by
            simp [sendPendingIfOnline, getPendingLogs, hu, hlen]
          by_cases hok : (drainLoop (postSucceeds (some u) resp) st.pending).2 = true
          · rw [haux, if_pos hok]
            exact ⟨⟨rest, hrest⟩, Or.inl rfl⟩
          · rw [haux, if_neg hok]
            exact ⟨⟨rest, hrest⟩, Or.inr rfl⟩

/-- C4 counterexample: calling `endSession` while Idle returns normally
(a silent no-op, producing no LogRecord) — it does not fail with any
error, so in particular no `PreconditionError` is raised. -/
theorem endSession_idle_no_error_counterexample :
    endSession none 0 GeoFix.unavailable none = .ok ⟨none, none, []⟩ ∧
    ∀ e : String, endSession none 0 GeoFix.unavailable none ≠ .error e := by
  refine ⟨rfl, ?_⟩
  intro e h
  simp [endSession] at h

/-- C4 as amended: calling `endSession` while Idle is a silent no-op — no
error is raised and no LogRecord is produced — and a LogRecord is
materialized exactly when a session is Active. -/
theorem endSession_idle_silent_noop :
    (∀ (now : ℤ) (g : GeoFix) (note : Option String),
      endSession none now g note = .ok ⟨none, none, []⟩) ∧
    (∀ (s : SessionState) (now : ℤ) (g : GeoFix) (note : Option String),
      ∃ r : LogRecord, endSession (some s) now g note =
        .ok ⟨none, some r, s.coords ++ [⟨fixLat g, fixLng g, now⟩]⟩) := by
  refine ⟨fun now g note => rfl, fun s now g note => ?_⟩
  exact ⟨mkEndRecord { s with coords := s.coords ++ [⟨fixLat g, fixLng g, now⟩] } now
    ⟨fixLat g, fixLng g, now⟩ note, rfl⟩

/-- C5: an update closer than 50 m (haversine) to the last accepted track
point leaves the session unchanged (the point is discarded, not merged);
an update at 50 m or more appends the point to the track and adds exactly
the haversine delta to the accumulated distance, removing and reordering
nothing. -/
theorem handleLocationUpdate_noise_filter (s : SessionState) (c last : Coordinate)
    (hlast : s.coords.getLast? = some last) :
    (haversineDistance last c * 1000 < 50 →
      handleLocationUpdate (some s) c = some s) ∧
    (haversineDistance last c * 1000 ≥ 50 →
      handleLocationUpdate (some s) c =
        some { s with distance := s.distance + haversineDistance last c,
                      coords := s.coords ++ [c] }) := by
  constructor
  · intro h
    simp only [handleLocationUpdate, handleLocationUpdateActive, hlast]
    rw [if_neg (by linarith)]
  · intro h
    simp only [handleLocationUpdate, handleLocationUpdateActive, hlast]
    rw [if_pos (by linarith)]

/-- Closed witness for C5: at `demoSession` an update at the very last
accepted point (distance 0 < 50 m) is discarded, and an update half the
globe away (6371·π km ≥ 50 m) is appended with its delta accumulated. -/
theorem handleLocationUpdate_noise_filter_witness :
    (demoSession.coords.getLast? = some origin ∧
      haversineDistance origin origin * 1000 < 50 ∧
      handleLocationUpdate (some demoSession) origin = some demoSession) ∧
    (haversineDistance origin faraway * 1000 ≥ 50 ∧
      handleLocationUpdate (some demoSession) faraway =
        some { demoSession with
                distance := demoSession.distance + haversineDistance origin faraway,
                coords := demoSession.coords ++ [faraway] }) := by
  have hlast : demoSession.coords.getLast? = some origin := rfl
  have h1 : haversineDistance origin origin * 1000 < 50 := by
    rw [haversine_self]; norm_num
  have h2 : haversineDistance origin faraway * 1000 ≥ 50 := by
    rw [haversine_origin_faraway]; nlinarith [Real.pi_gt_three]
  exact ⟨⟨hlast, h1, (handleLocationUpdate_noise_filter demoSession origin origin hlast).1 h1⟩,
    ⟨h2, (handleLocationUpdate_noise_filter demoSession faraway origin hlast).2 h2⟩⟩

/-- C6: during an active session no operation decreases
`accumulatedDistanceKm`: a location update only adds the (non-negative)
haversine delta, and break toggles, rest toggles and fuel events leave the
distance unchanged. -/
theorem session_distance_monotone (s : SessionState) (c : Coordinate) (now : ℤ)
    (g : GeoFix) (amountP costP : PromptNum) (a b : Coordinate) :
    s.distance ≤ (handleLocationUpdateActive s c).distance ∧
    (toggleBreakActive s now g).distance = s.distance ∧
    (toggleRestActive s now g).distance = s.distance ∧
    ((addFuelActive s now amountP costP g).1).distance = s.distance ∧
    0 ≤ haversineDistance a b := by
  refine ⟨?_, ?_, ?_, ?_, haversine_nonneg a b⟩
  · unfold handleLocationUpdateActive
    cases hl : s.coords.getLast? with
    | none => exact le_refl _
    | some last =>
      dsimp only
      split_ifs with h
      · have := haversine_nonneg last c
        simp only
        linarith
      · exact le_refl _
  · unfold toggleBreakActive
    split_ifs <;> rfl
  · unfold toggleRestActive
    split_ifs <;> rfl
  · unfold addFuelActive
    cases amountP with
    | cancelled => rfl
    | nan => rfl
    | val x => dsimp only; split_ifs <;> rfl

/-- C7: from an active session with no breaks, two `toggleBreak` calls
yield exactly one closed interval with `start ≤ end`; a third call yields
exactly two intervals — the first closed, the last opened one being the
only one with no end. -/
theorem toggleBreak_intervals (s : SessionState) (t1 t2 t3 : ℤ) (g1 g2 g3 : GeoFix)
    (hb : s.breaks = []) (h12 : t1 ≤ t2) :
    ((toggleBreakActive (toggleBreakActive s t1 g1) t2 g2).breaks.map
        (fun b => (b.start, b.endTime)) = [(t1, some t2)] ∧ t1 ≤ t2) ∧
    (toggleBreakActive (toggleBreakActive (toggleBreakActive s t1 g1) t2 g2) t3 g3).breaks.map
        (fun b => (b.start, b.endTime)) = [(t1, some t2), (t3, none)] := by
  have hbreaks : ∀ (s' : SessionState) (now : ℤ) (g : GeoFix),
      (toggleBreakActive s' now g).breaks =
        (if lastBreakOpen s'.breaks then
          s'.breaks.dropLast ++
            (match s'.breaks.getLast? with
             | some b => [closeBreak b now g]
             | none => [])
        else s'.breaks ++ [newBreak now g]) := by
    intro s' now g
    unfold toggleBreakActive
    split_ifs <;> rfl
  have hopen : (newBreak t1 g1).endTime = none := by cases g1 <;> rfl
  have hs1 : (toggleBreakActive s t1 g1).breaks = [newBreak t1 g1] := by
    rw [hbreaks, hb]
    rfl
  have hs2 : (toggleBreakActive (toggleBreakActive s t1 g1) t2 g2).breaks =
      [closeBreak (newBreak t1 g1) t2 g2] := by
    rw [hbreaks, hs1]
    have hop : lastBreakOpen [newBreak t1 g1] = true := by
      simp [lastBreakOpen, List.getLast?, hopen]
    rw [if_pos hop]
    rfl
  have hstart1 : (closeBreak (newBreak t1 g1) t2 g2).start = t1 := by
    cases g1 <;> cases g2 <;> rfl
  have hend1 : (closeBreak (newBreak t1 g1) t2 g2).endTime = some t2 := by
    cases g1 <;> cases g2 <;> rfl
  have hs3 : (toggleBreakActive (toggleBreakActive (toggleBreakActive s t1 g1) t2 g2)
      t3 g3).breaks = [closeBreak (newBreak t1 g1) t2 g2, newBreak t3 g3] := by
    rw [hbreaks, hs2]
    have hcl : lastBreakOpen [closeBreak (newBreak t1 g1) t2 g2] = false := by
      simp [lastBreakOpen, List.getLast?, hend1]
    rw [if_neg (by simp [hcl])]
    rfl
  have hstart3 : (newBreak t3 g3).start = t3 := by cases g3 <;> rfl
  have hopen3 : (newBreak t3 g3).endTime = none := by cases g3 <;> rfl
  refine ⟨⟨?_, h12⟩, ?_⟩
  · rw [hs2]
    simp [hstart1, hend1]
  · rw [hs3]
    simp [hstart1, hend1, hstart3, hopen3]

/-- Closed witness for C7 at `demoSession` (no breaks) with timestamps
0 ≤ 1 and no geolocation fixes. -/
theorem toggleBreak_intervals_witness :
    demoSession.breaks = [] ∧ (0 : ℤ) ≤ 1 ∧
    ((toggleBreakActive (toggleBreakActive demoSession 0 GeoFix.unavailable) 1
        GeoFix.unavailable).breaks.map (fun b => (b.start, b.endTime)) =
          [((0 : ℤ), some (1 : ℤ))] ∧ (0 : ℤ) ≤ 1) ∧
    (toggleBreakActive (toggleBreakActive (toggleBreakActive demoSession 0
        GeoFix.unavailable) 1 GeoFix.unavailable) 2 GeoFix.unavailable).breaks.map
      (fun b => (b.start, b.endTime)) = [((0 : ℤ), some (1 : ℤ)), ((2 : ℤ), none)] := by
  refine ⟨rfl, by norm_num, ?_⟩
  exact toggleBreak_intervals demoSession 0 1 2 GeoFix.unavailable GeoFix.unavailable
    GeoFix.unavailable rfl (by norm_num)

/-- C8: `addFuel` with a non-positive (or unparsable) amount reports a
validation error and leaves the session — in particular its fuel list —
unchanged; with a positive amount it appends exactly one fuel event whose
cost is the clamped cost (0 for negative, unparsable or cancelled
entries), leaving all previously appended events untouched. -/
theorem addFuel_validation_and_append (s : SessionState) (now : ℤ) (a : ℝ)
    (costP : PromptNum) (g : GeoFix) :
    (a ≤ 0 → addFuelActive s now (PromptNum.val a) costP g = (s, FuelOutcome.validationError)) ∧
    addFuelActive s now PromptNum.nan costP g = (s, FuelOutcome.validationError) ∧
    (0 < a → (addFuelActive s now (PromptNum.val a) costP g).1.fuelLogs =
        s.fuelLogs ++ [⟨now, a, some (clampCost costP), fixLat g, fixLng g⟩] ∧
      (addFuelActive s now (PromptNum.val a) costP g).2 = FuelOutcome.added ∧
      (addFuelActive s now (PromptNum.val a) costP g).1.fuelLogs.take s.fuelLogs.length =
        s.fuelLogs) ∧
    (∀ cc : ℝ, cc < 0 → clampCost (PromptNum.val cc) = 0) ∧
    clampCost PromptNum.nan = 0 ∧ clampCost PromptNum.cancelled = 0 := by
  refine ⟨?_, rfl, ?_, ?_, rfl, rfl⟩
  · intro h
    simp [addFuelActive, h]
  · intro h
    have hne : ¬a ≤ 0 := not_le.mpr h
    refine ⟨?_, ?_, ?_⟩
    · simp [addFuelActive, hne]
    · simp [addFuelActive, hne]
    · simp [addFuelActive, hne]
  · intro cc hcc
    simp [clampCost, not_lt.mpr hcc.le]

/-- Closed witness for C8 at `demoSession`: amount −1 is rejected with the
session unchanged; amount 2 with cost entry −3 appends one event with
cost clamped to 0. -/
theorem addFuel_validation_and_append_witness :
    ((-1 : ℝ) ≤ 0 ∧
      addFuelActive demoSession 5 (PromptNum.val (-1)) PromptNum.cancelled GeoFix.unavailable =
        (demoSession, FuelOutcome.validationError)) ∧
    ((0 : ℝ) < 2 ∧ (-3 : ℝ) < 0 ∧
      (addFuelActive demoSession 5 (PromptNum.val 2) (PromptNum.val (-3))
          GeoFix.unavailable).1.fuelLogs =
        demoSession.fuelLogs ++
          [⟨5, 2, some (clampCost (PromptNum.val (-3))), fixLat GeoFix.unavailable,
            fixLng GeoFix.unavailable⟩] ∧
      clampCost (PromptNum.val (-3)) = 0) := by
  have h1 : (-1 : ℝ) ≤ 0 := by norm_num
  have h2 : (0 : ℝ) < 2 := by norm_num
  have h3 : (-3 : ℝ) < 0 := by norm_num
  refine ⟨⟨h1, (addFuel_validation_and_append demoSession 5 (-1) PromptNum.cancelled
      GeoFix.unavailable).1 h1⟩, ⟨h2, h3, ?_, ?_⟩⟩
  · exact ((addFuel_validation_and_append demoSession 5 2 (PromptNum.val (-3))
      GeoFix.unavailable).2.2.1 h2).1
  · exact (addFuel_validation_and_append demoSession 5 2 (PromptNum.val (-3))
      GeoFix.unavailable).2.2.2.1 (-3) h3

/-- C9: `distanceKm` (the haversine great-circle distance) is zero on equal
coordinates and symmetric in its arguments; as a Lean function of its two
arguments it is pure by construction. -/
theorem haversine_zero_and_symm :
    ∀ a b : Coordinate,
      haversineDistance a a = 0 ∧ haversineDistance a b = haversineDistance b a :=
  fun a b => ⟨haversine_self a, haversine_comm a b⟩

/-- C10: ending a session appends the arrival coordinate to the track
unconditionally (no 50 m filter is applied), while the record's
`distanceKm` is the 3-decimal rounding of the accumulated distance alone —
the final leg from the last accepted point to the arrival coordinate is
not added. -/
theorem endSession_final_leg_excluded (s : SessionState) (now : ℤ) (g : GeoFix)
    (note : Option String) :
    ∃ r : LogRecord,
      endSession (some s) now g note =
        .ok ⟨none, some r, s.coords ++ [⟨fixLat g, fixLng g, now⟩]⟩ ∧
      r.distanceKm = round3 s.distance ∧
      r.arrivalLat = fixLat g ∧ r.arrivalLng = fixLng g := by
  exact ⟨mkEndRecord { s with coords := s.coords ++ [⟨fixLat g, fixLng g, now⟩] } now
    ⟨fixLat g, fixLng g, now⟩ note, rfl, rfl, rfl, rfl⟩

end TransportLog
